import Mathlib

/-!
Verification development for the declarative component resolution engine of
the `dagster_components` library.

The shallow embedding below translates the code of
`dagster_components/core/component_defs_builder.py` (the authoritative source
for the composer) into Lean.  Collaborating pieces that the repository calls
but whose code is not part of the source tree here (`path_to_decl_node`,
`ComponentDeclNode.load`, `Definitions.merge`, the resolution context and the
schema resolution engine) are modelled from the specification; each such
definition carries a doc comment starting with `Modelled from the spec:`.

Machine data is modelled with `Nat` placeholders for opaque runtime values
(asset payloads, resource objects, scope values): the engine never inspects
those values, it only moves them around and compares identifying string keys.
-/

/-- A filesystem path, as its list of parts (mirrors `pathlib.Path.parts`). -/
abbrev FsPath := List String

/-- `ComponentKey` from `component_key.py`: a namespaced identifier uniquely
naming a component type across the registry. -/
structure ComponentKey where
  namespc : String
  name : String
deriving DecidableEq, Repr

/-- Modelled from the spec: the component key registry maps stable type
identifiers to component factories.  The model only needs key membership
(the factory behaviour is uniform in the embedding), so a registry is the
list of registered keys. -/
abbrev Registry := List ComponentKey

/-- A raw declared field value of a leaf schema document: either a literal,
or an expression reading a named value from the resolution scope (the
expression also records its field path for error reporting). -/
inductive FieldVal where
  | lit (n : Nat)
  | scopeRef (key : String) (fieldPath : String)
deriving DecidableEq, Repr

/-- `YamlComponentDecl`: a leaf declaration.  It owns the path it came from,
the component type it instantiates, and its raw schema document (a list of
named raw field values). -/
structure YamlComponentDecl where
  path : FsPath
  typeKey : ComponentKey
  fields : List (String × FieldVal)
deriving DecidableEq, Repr

/-- `ComponentDeclNode`: the declaration tree.  The source handles two
declared variants (`YamlComponentDecl` and `ComponentFolder`); the extra
`unknownNode` constructor stands for any other runtime value reaching
`resolve_decl_node_to_yaml_decls`, whose fall-through branch raises
`NotImplementedError`. -/
inductive ComponentDeclNode where
  | yaml (d : YamlComponentDecl)
  | folder (sub_decls : List ComponentDeclNode)
  | unknownNode (tag : Nat)

/-- The kinds of named collections held by a `Definitions` object. -/
inductive DefKind where
  | asset
  | job
  | resource
  | schedule
  | sensor
deriving DecidableEq, Repr

/-- The error taxonomy of the engine.  `notFoundError` models the
`Exception(f"No component found at path {path}")` raised by
`build_defs_from_component_path`; the remaining constructors model the
spec's taxonomy for the collaborators that are not part of the source tree
(registry validation, scope resolution, merge conflicts) and the
`NotImplementedError` fall-through of `resolve_decl_node_to_yaml_decls`. -/
inductive BuildError where
  | notFoundError (path : FsPath)
  | unknownComponentTypeError (key : ComponentKey) (path : FsPath)
  | scopeResolutionError (missingKey : String) (fieldPath : String)
  | duplicateDefinitionError (key : String) (kind : DefKind) (unit1 : Nat) (unit2 : Nat)
  | notImplementedError (node : ComponentDeclNode)

mutual

/-- `resolve_decl_node_to_yaml_decls` from `component_defs_builder.py`:
returns `[decl]` on a leaf, recursively extends over `sub_decls` on a
folder, and raises `NotImplementedError` on any other node. -/
def resolve_decl_node_to_yaml_decls : ComponentDeclNode → Except BuildError (List YamlComponentDecl)
  | ComponentDeclNode.yaml d => Except.ok [d]
  | ComponentDeclNode.folder subs => resolveDeclList subs
  | ComponentDeclNode.unknownNode t =>
      Except.error (BuildError.notImplementedError (ComponentDeclNode.unknownNode t))

/-- The `for sub_decl in decl.sub_decls: leaf_decls.extend(...)` loop of
`resolve_decl_node_to_yaml_decls`, sequencing the recursive calls in order
and propagating the first raised error. -/
def resolveDeclList : List ComponentDeclNode → Except BuildError (List YamlComponentDecl)
  | [] => Except.ok []
  | d :: rest => do
      let l ← resolve_decl_node_to_yaml_decls d
      let r ← resolveDeclList rest
      Except.ok (l ++ r)

end

mutual

/-- The structural precondition of the declared data model: the tree is
built from the two declared variants only. -/
def noUnknown : ComponentDeclNode → Bool
  | ComponentDeclNode.yaml _ => true
  | ComponentDeclNode.folder subs => noUnknownList subs
  | ComponentDeclNode.unknownNode _ => false

/-- `noUnknown` over a list of children. -/
def noUnknownList : List ComponentDeclNode → Bool
  | [] => true
  | d :: rest => noUnknown d && noUnknownList rest

end

mutual

/-- Second definition for the refinement claim about folder flattening,
following the spec's words: the leaves of a tree collected in pre-order
(depth-first, children in their stored order). -/
def preorderLeavesSpec : ComponentDeclNode → List YamlComponentDecl
  | ComponentDeclNode.yaml d => [d]
  | ComponentDeclNode.folder subs => preorderLeavesSpecList subs
  | ComponentDeclNode.unknownNode _ => []

/-- `preorderLeavesSpec` over a list of children, preserving stored order. -/
def preorderLeavesSpecList : List ComponentDeclNode → List YamlComponentDecl
  | [] => []
  | d :: rest => preorderLeavesSpec d ++ preorderLeavesSpecList rest

end

mutual

/-- The number of leaf-type nodes in a declaration tree. -/
def leafCountSpec : ComponentDeclNode → Nat
  | ComponentDeclNode.yaml _ => 1
  | ComponentDeclNode.folder subs => leafCountSpecList subs
  | ComponentDeclNode.unknownNode _ => 0

/-- `leafCountSpec` over a list of children. -/
def leafCountSpecList : List ComponentDeclNode → Nat
  | [] => 0
  | d :: rest => leafCountSpec d + leafCountSpecList rest

end

/-- Modelled from the spec: `ResolutionContext` — an immutable chain of
scopes mapping names to values; lookups fall back to outer scopes when a
name is absent in the innermost one. -/
structure ResolutionContext where
  scopes : List (List (String × Nat))
deriving DecidableEq, Repr

/-- `ResolutionContext.default()`: the empty scope chain. -/
def ResolutionContext.default : ResolutionContext := ⟨[]⟩

/-- Scope lookup with parent fallback: scan the scope chain innermost
first, returning the first binding of the requested name. -/
def lookupScopes : List (List (String × Nat)) → String → Option Nat
  | [], _ => none
  | s :: rest, k =>
    match s.find? (fun e => e.1 == k) with
    | some e => some e.2
    | none => lookupScopes rest k

/-- Lookup on a resolution context. -/
def ResolutionContext.lookup (ctx : ResolutionContext) (k : String) : Option Nat :=
  lookupScopes ctx.scopes k

/-- Extend a resolution context with a new innermost scope. -/
def ResolutionContext.with_scope (ctx : ResolutionContext) (s : List (String × Nat)) :
    ResolutionContext :=
  ⟨s :: ctx.scopes⟩

/-- `ComponentLoadContext` as constructed in `build_defs_from_component_path`:
the derived module name, the externally supplied resources, the decl node
being built, and the resolution context. -/
structure ComponentLoadContext where
  module_name : String
  resources : List (String × Nat)
  decl_node : ComponentDeclNode
  resolution_context : ResolutionContext

/-- `context.with_rendering_scope(...)`: extend the carried resolution
context with additional rendering scope. -/
def ComponentLoadContext.with_rendering_scope (ctx : ComponentLoadContext)
    (s : List (String × Nat)) : ComponentLoadContext :=
  { ctx with resolution_context := ctx.resolution_context.with_scope s }

/-- `".".join(path.parts[-3:])` from `build_defs_from_component_path`. -/
def moduleNameOf (p : FsPath) : String :=
  String.intercalate "." (p.drop (p.length - 3))

/-- The `Component` produced by resolving a leaf declaration: its component
type key together with its already-resolved field values (spec: the
resolved, strongly-typed runtime object holds resolved fields, not raw
schema). -/
structure Component where
  key : ComponentKey
  resolvedFields : List (String × Nat)
deriving DecidableEq, Repr

/-- A schema field annotation: the field's path (for error reporting) and
the scope keys it requires, mirroring `ResolvableFieldInfo(required_scope=...)`. -/
structure FieldSpec where
  fieldPath : String
  requiredScope : List String
deriving DecidableEq, Repr

/-- The `asset_attributes` field of `DbtProjectSchema`
(`components/dbt_project/component.py`), annotated with
`ResolvableFieldInfo(required_scope={"node"})`. -/
def dbtAssetAttributesField : FieldSpec :=
  { fieldPath := "asset_attributes", requiredScope := ["node"] }

/-- Modelled from the spec: a field resolver reads each of its required
scope keys through the context; an unresolved required scope is a
`ScopeResolutionError` naming the missing key and the field path. -/
def resolveScopeKeys (ctx : ResolutionContext) (fieldPath : String) :
    List String → Except BuildError (List (String × Nat))
  | [] => Except.ok []
  | k :: rest =>
    match ctx.lookup k with
    | none => Except.error (BuildError.scopeResolutionError k fieldPath)
    | some v => (resolveScopeKeys ctx fieldPath rest).map (fun l => (k, v) :: l)

/-- Modelled from the spec: invoke a field resolver whose field declares a
required scope set; the resolved value reflects the values of the scope
entries it reads. -/
def resolveRequiredScopeField (ctx : ResolutionContext) (f : FieldSpec) :
    Except BuildError (List (String × Nat)) :=
  resolveScopeKeys ctx f.fieldPath f.requiredScope

/-- Modelled from the spec: schema field resolution (§4.3) — a literal field
is copied unchanged, a scope-reading field resolves through the context and
fails with `ScopeResolutionError` when the scope entry is absent. -/
def resolveFieldValue (ctx : ResolutionContext) : FieldVal → Except BuildError Nat
  | FieldVal.lit n => Except.ok n
  | FieldVal.scopeRef k p =>
    match ctx.lookup k with
    | some v => Except.ok v
    | none => Except.error (BuildError.scopeResolutionError k p)

/-- Modelled from the spec: resolve every field of a schema document in
declaration order, each resolver seeing the same context. -/
def resolveFields (ctx : ResolutionContext) :
    List (String × FieldVal) → Except BuildError (List (String × Nat))
  | [] => Except.ok []
  | (n, fv) :: rest => do
      let v ← resolveFieldValue ctx fv
      let r ← resolveFields ctx rest
      Except.ok ((n, v) :: r)

/-- Modelled from the spec: `decl.load(context)` for a leaf (§4.4) — after
validating that the declared component type exists in the registry (absent
key: `UnknownComponentTypeError` naming the key and the decl's location),
resolve the one schema into exactly one `Component` holding the resolved
fields. -/
def YamlComponentDecl.load (reg : Registry) (rctx : ResolutionContext)
    (d : YamlComponentDecl) : Except BuildError Component :=
  if (reg.find? (fun k => k == d.typeKey)).isSome then
    (resolveFields rctx d.fields).map (fun fs => { key := d.typeKey, resolvedFields := fs })
  else
    Except.error (BuildError.unknownComponentTypeError d.typeKey d.path)

mutual

/-- Modelled from the spec: `decl.load(context)` over the tree (§4.4) — a
leaf yields its one component, a folder loads each child and concatenates
the results preserving child order. -/
def loadDeclNode (reg : Registry) (rctx : ResolutionContext) :
    ComponentDeclNode → Except BuildError (List Component)
  | ComponentDeclNode.yaml d => (d.load reg rctx).map (fun c => [c])
  | ComponentDeclNode.folder subs => loadDeclList reg rctx subs
  | ComponentDeclNode.unknownNode t =>
      Except.error (BuildError.notImplementedError (ComponentDeclNode.unknownNode t))

/-- `loadDeclNode` over a folder's children, in stored order. -/
def loadDeclList (reg : Registry) (rctx : ResolutionContext) :
    List ComponentDeclNode → Except BuildError (List Component)
  | [] => Except.ok []
  | d :: rest => do
      let l ← loadDeclNode reg rctx d
      let r ← loadDeclList reg rctx rest
      Except.ok (l ++ r)

end

/-- `Definitions`: named collections of assets, jobs, resources, schedules
and sensors; each entry is an identifying key with an opaque payload. -/
structure Definitions where
  assets : List (String × Nat) := []
  jobs : List (String × Nat) := []
  resources : List (String × Nat) := []
  schedules : List (String × Nat) := []
  sensors : List (String × Nat) := []
deriving DecidableEq, Repr

/-- Tag every entry key of one collection with the index of the
`Definitions` object (the build unit) contributing it, starting at `i`. -/
def tagFrom (proj : Definitions → List (String × Nat)) (i : Nat) :
    List Definitions → List (Nat × String)
  | [] => []
  | d :: rest => (proj d).map (fun e => (i, e.1)) ++ tagFrom proj (i + 1) rest

/-- Tag every resource entry (key and value) with the index of the
contributing `Definitions` object, starting at `i`. -/
def resTagFrom (i : Nat) : List Definitions → List (Nat × (String × Nat))
  | [] => []
  | d :: rest => d.resources.map (fun r => (i, r)) ++ resTagFrom (i + 1) rest

/-- Find the first pair of entries sharing an identifying key, returning
the key and the two contributing unit indices. -/
def dupCheck : List (Nat × String) → Option (String × Nat × Nat)
  | [] => none
  | (i, k) :: rest =>
    match rest.find? (fun e => e.2 == k) with
    | some e => some (k, i, e.1)
    | none => dupCheck rest

/-- Find the first pair of resource entries sharing a key with differing
values (an identical resource supplied by several units is not a
conflict). -/
def resDupCheck : List (Nat × (String × Nat)) → Option (String × Nat × Nat)
  | [] => none
  | (i, r) :: rest =>
    match rest.find? (fun e => e.2.1 == r.1 && e.2.2 != r.2) with
    | some e => some (r.1, i, e.1)
    | none => resDupCheck rest

/-- Keep the first entry for each resource key, skipping entries whose key
was already seen. -/
def dedupKeysAux (seen : List String) : List (String × Nat) → List (String × Nat)
  | [] => []
  | e :: rest =>
    if e.1 ∈ seen then dedupKeysAux seen rest
    else e :: dedupKeysAux (e.1 :: seen) rest

/-- Keep the first entry for each resource key. -/
def dedupKeys (l : List (String × Nat)) : List (String × Nat) :=
  dedupKeysAux [] l

/-- Modelled from the spec: `Definitions.merge(*defs)` (§4.5 step 3) —
union of each named collection; two entries of the same collection sharing
an identifying key is a fatal `DuplicateDefinitionError` naming the key,
the kind and both contributing units, with no silent override.  For
resources, the same key bound to the same value by several contributors is
not a conflict (the externally supplied resources mapping is wrapped once
per unit). -/
def mergeAll (ds : List Definitions) : Except BuildError Definitions :=
  match dupCheck (tagFrom Definitions.assets 0 ds) with
  | some r => Except.error (BuildError.duplicateDefinitionError r.1 DefKind.asset r.2.1 r.2.2)
  | none =>
    match dupCheck (tagFrom Definitions.jobs 0 ds) with
    | some r => Except.error (BuildError.duplicateDefinitionError r.1 DefKind.job r.2.1 r.2.2)
    | none =>
      match resDupCheck (resTagFrom 0 ds) with
      | some r =>
        Except.error (BuildError.duplicateDefinitionError r.1 DefKind.resource r.2.1 r.2.2)
      | none =>
        match dupCheck (tagFrom Definitions.schedules 0 ds) with
        | some r =>
          Except.error (BuildError.duplicateDefinitionError r.1 DefKind.schedule r.2.1 r.2.2)
        | none =>
          match dupCheck (tagFrom Definitions.sensors 0 ds) with
          | some r =>
            Except.error (BuildError.duplicateDefinitionError r.1 DefKind.sensor r.2.1 r.2.2)
          | none => Except.ok {
              assets := (ds.map Definitions.assets).flatten
              jobs := (ds.map Definitions.jobs).flatten
              resources := dedupKeys (ds.map Definitions.resources).flatten
              schedules := (ds.map Definitions.schedules).flatten
              sensors := (ds.map Definitions.sensors).flatten }

/-- The collaborators the composer calls, supplied by dependency injection
(spec §9: the registry and the filesystem walk are explicit state passed
into the build entry point).  `pathToDeclNode` models `path_to_decl_node`,
`rootEntries` models `components_root.iterdir()`, `discovered` models
`discover_entry_point_component_types()`, `buildDefsFn` models
`component.build_defs(context)` and `additionalScope` models
`component.get_additional_scope()`. -/
structure Env where
  pathToDeclNode : FsPath → Option ComponentDeclNode
  rootEntries : FsPath → List FsPath
  discovered : Registry
  buildDefsFn : Component → ComponentLoadContext → Definitions
  additionalScope : Component → List (String × Nat)

/-- `defs_from_components` from `component_defs_builder.py`:
`Definitions.merge(*[ *[c.build_defs(context.with_rendering_scope(
c.get_additional_scope())) for c in components], Definitions(resources=resources)])`. -/
def defs_from_components (env : Env) (context : ComponentLoadContext)
    (components : List Component) (resources : List (String × Nat)) :
    Except BuildError Definitions :=
  mergeAll
    ((components.map (fun c =>
        env.buildDefsFn c (context.with_rendering_scope (env.additionalScope c)))) ++
      [{ resources := resources }])

/-- `build_defs_from_component_path` from `component_defs_builder.py`:
resolve the path to a decl node (raising when none is found, with the
offending path), construct the load context, load the components and hand
them to `defs_from_components`. -/
def build_defs_from_component_path (env : Env) (components_root : FsPath)
    (path : FsPath) (resources : List (String × Nat)) : Except BuildError Definitions :=
  match env.pathToDeclNode path with
  | none => Except.error (BuildError.notFoundError path)
  | some decl_node =>
    let context : ComponentLoadContext :=
      { module_name := moduleNameOf path
        resources := resources
        decl_node := decl_node
        resolution_context := ResolutionContext.default }
    match loadDeclNode env.discovered context.resolution_context decl_node with
    | Except.error e => Except.error e
    | Except.ok components => defs_from_components env context components resources

/-- `build_component_defs` from `component_defs_builder.py`: default the
`component_types` argument to the discovered entry-point registry (the
source computes this value and never uses it afterwards, which the dead
`_component_types` binding mirrors), build one `Definitions` per entry of
`components_root.iterdir()` and merge them.  `resources` defaults to the
empty mapping (`resources or {}`). -/
def build_component_defs (env : Env) (components_root : FsPath)
    (resources : Option (List (String × Nat))) (component_types : Option Registry) :
    Except BuildError Definitions :=
  let _component_types := component_types.getD env.discovered
  match (env.rootEntries components_root).mapM
      (fun p => build_defs_from_component_path env components_root p (resources.getD [])) with
  | Except.error e => Except.error e
  | Except.ok all_defs => mergeAll all_defs

/-- Instrumented variant of `build_defs_from_component_path` that also
reports the components on which `build_defs` was invoked (the trace).  The
Python list comprehension in `defs_from_components` calls `build_defs` on
every loaded component before the merge runs. -/
def build_defs_from_component_path_traced (env : Env) (components_root : FsPath)
    (path : FsPath) (resources : List (String × Nat)) :
    Except BuildError Definitions × List Component :=
  match env.pathToDeclNode path with
  | none => (Except.error (BuildError.notFoundError path), [])
  | some decl_node =>
    let context : ComponentLoadContext :=
      { module_name := moduleNameOf path
        resources := resources
        decl_node := decl_node
        resolution_context := ResolutionContext.default }
    match loadDeclNode env.discovered context.resolution_context decl_node with
    | Except.error e => (Except.error e, [])
    | Except.ok components => (defs_from_components env context components resources, components)

/-- The `for component_path in components_root.iterdir()` loop of
`build_component_defs`, accumulating per-unit `Definitions` and the trace
of `build_defs` invocations, aborting at the first raised error. -/
def buildUnitsTraced (env : Env) (components_root : FsPath)
    (resources : List (String × Nat)) :
    List FsPath → Except BuildError (List Definitions) × List Component
  | [] => (Except.ok [], [])
  | p :: rest =>
    match build_defs_from_component_path_traced env components_root p resources with
    | (Except.error e, t) => (Except.error e, t)
    | (Except.ok d, t) =>
      match buildUnitsTraced env components_root resources rest with
      | (Except.error e, t2) => (Except.error e, t ++ t2)
      | (Except.ok ds, t2) => (Except.ok (d :: ds), t ++ t2)

/-- Instrumented variant of `build_component_defs` reporting the trace of
`build_defs` invocations made during the build. -/
def build_component_defs_traced (env : Env) (components_root : FsPath)
    (resources : Option (List (String × Nat))) (component_types : Option Registry) :
    Except BuildError Definitions × List Component :=
  let _component_types := component_types.getD env.discovered
  match buildUnitsTraced env components_root (resources.getD [])
      (env.rootEntries components_root) with
  | (Except.error e, t) => (Except.error e, t)
  | (Except.ok ds, t) => (mergeAll ds, t)

/-- Two successive top-level builds of the same root.  `build_component_defs`
holds no state between calls (the source has no cache), so the second build
is the same pure computation as the first. -/
def build_twice (env : Env) (components_root : FsPath)
    (resources : Option (List (String × Nat))) (component_types : Option Registry) :
    (Except BuildError Definitions × List Component) ×
      (Except BuildError Definitions × List Component) :=
  (build_component_defs_traced env components_root resources component_types,
   build_component_defs_traced env components_root resources component_types)

/-! ### Concrete environments used by witnesses and counterexamples -/

/-- A component type key registered in the discovered registry of the
concrete test environments. -/
def keyA : ComponentKey := { namespc := "test", name := "compA" }

/-- A second registered component type key. -/
def keyB : ComponentKey := { namespc := "test", name := "compB" }

/-- A concrete leaf declaration of type `keyA` under `root/a`. -/
def declA : YamlComponentDecl :=
  { path := ["root", "a"], typeKey := keyA, fields := [] }

/-- A concrete leaf declaration of type `keyB` under `root/b`. -/
def declB : YamlComponentDecl :=
  { path := ["root", "b"], typeKey := keyB, fields := [] }

/-- An environment with no build units at all under any root and no
discoverable component types. -/
def envEmpty : Env :=
  { pathToDeclNode := fun _ => none
    rootEntries := fun _ => []
    discovered := []
    buildDefsFn := fun _ _ => {}
    additionalScope := fun _ => [] }

/-- An environment with two build units, `root/a` and `root/b`, whose
components materialize one asset each, named `a1` and `b1`. -/
def envTwoUnits : Env :=
  { pathToDeclNode := fun p =>
      if p = ["root", "a"] then some (ComponentDeclNode.yaml declA)
      else if p = ["root", "b"] then some (ComponentDeclNode.yaml declB)
      else none
    rootEntries := fun _ => [["root", "a"], ["root", "b"]]
    discovered := [keyA, keyB]
    buildDefsFn := fun c _ =>
      if c.key.name = "compA" then { assets := [("a1", 0)] } else { assets := [("b1", 0)] }
    additionalScope := fun _ => [] }

/-- An environment with two build units whose components both materialize
an asset named `x`. -/
def envClash : Env :=
  { pathToDeclNode := fun p =>
      if p = ["root", "a"] then some (ComponentDeclNode.yaml declA)
      else if p = ["root", "b"] then some (ComponentDeclNode.yaml declB)
      else none
    rootEntries := fun _ => [["root", "a"], ["root", "b"]]
    discovered := [keyA, keyB]
    buildDefsFn := fun c _ =>
      if c.key.name = "compA" then { assets := [("x", 0)] } else { assets := [("x", 1)] }
    additionalScope := fun _ => [] }

/-- An environment with a single build unit `root/a` of type `keyA`
materializing one asset `a1`; `keyA` is provided by entry-point discovery. -/
def envOneUnit : Env :=
  { pathToDeclNode := fun p =>
      if p = ["root", "a"] then some (ComponentDeclNode.yaml declA) else none
    rootEntries := fun _ => [["root", "a"]]
    discovered := [keyA]
    buildDefsFn := fun _ _ => { assets := [("a1", 0)] }
    additionalScope := fun _ => [] }

/-- The component loaded from `declA` (no fields to resolve). -/
def compA : Component := { key := keyA, resolvedFields := [] }

/-! ### Lemmas about duplicate detection and merging -/

/-- `find?` by key misses a list not containing the key. -/
lemma findKey_none (es : List (Nat × String)) (k : String)
    (h : k ∉ es.map Prod.snd) : es.find? (fun e => e.2 == k) = none := by
  rw [List.find?_eq_none]
  intro x hx
  simp only [beq_iff_eq]
  intro hk
  exact h (List.mem_map.mpr ⟨x, hx, hk⟩)

/-- `find?` by key on a uniformly tagged list returns the tag with the key. -/
lemma findKey_tagged (l : List String) (lab : Nat) (x : String) (hx : x ∈ l) :
    (l.map (fun k => (lab, k))).find? (fun e => e.2 == x) = some (lab, x) := by
  induction l with
  | nil => cases hx
  | cons y t ih =>
    by_cases hyx : y = x
    · subst hyx
      simp
    · rw [List.map_cons, List.find?_cons_of_neg _ (by simpa using hyx)]
      exact ih ((List.mem_cons.mp hx).resolve_left (fun hcontra => hyx hcontra.symm))

/-- The keys collected by `tagFrom` are the per-unit key lists flattened. -/
lemma tagFrom_map_snd (proj : Definitions → List (String × Nat)) (ds : List Definitions) :
    ∀ i, (tagFrom proj i ds).map Prod.snd =
      (ds.map (fun d => (proj d).map Prod.fst)).flatten := by
  induction ds with
  | nil => intro i; rfl
  | cons d rest ih =>
    intro i
    simp only [tagFrom, List.map_append, List.map_map, List.map_cons, List.flatten_cons, ih]
    rfl

/-- No duplicate is reported when the collected keys are `Nodup`. -/
lemma dupCheck_none (es : List (Nat × String)) (h : (es.map Prod.snd).Nodup) :
    dupCheck es = none := by
  induction es with
  | nil => rfl
  | cons a rest ih =>
    obtain ⟨i, k⟩ := a
    simp only [List.map_cons, List.nodup_cons] at h
    rw [dupCheck, findKey_none rest k h.1]
    exact ih h.2

/-- The first duplicate reported on two tagged units sharing exactly the
key `x` is `x`, contributed by units `0` and `1`. -/
lemma dupCheck_pair (l1 l2 : List String) (x : String) (h1 : l1.Nodup)
    (hx1 : x ∈ l1) (hx2 : x ∈ l2) (hsh : ∀ k, k ∈ l1 → k ∈ l2 → k = x) :
    dupCheck (l1.map (fun k => (0, k)) ++ l2.map (fun k => (1, k))) = some (x, 0, 1) := by
  induction l1 with
  | nil => cases hx1
  | cons k t ih =>
    simp only [List.nodup_cons] at h1
    rw [List.map_cons, List.cons_append, dupCheck, List.find?_append]
    by_cases hkx : k = x
    · subst hkx
      have hnone : (t.map (fun k2 => (0, k2))).find? (fun e => e.2 == k) = none := by
        apply findKey_none
        simpa using h1.1
      rw [hnone, Option.none_or, findKey_tagged l2 1 k hx2]
    · have hnt : (t.map (fun k2 => (0, k2))).find? (fun e => e.2 == k) = none := by
        apply findKey_none
        simpa using h1.1
      have hnl2 : (l2.map (fun k2 => (1, k2))).find? (fun e => e.2 == k) = none := by
        apply findKey_none
        simp only [List.map_map]
        intro hmem
        refine hkx (hsh k (List.mem_cons_self _ _) ?_)
        simpa using hmem
      rw [hnt, hnl2]
      exact ih h1.2 ((List.mem_cons.mp hx1).resolve_left (fun hcontra => hkx hcontra.symm))
        (fun k2 hk2 => hsh k2 (List.mem_cons_of_mem _ hk2))

/-- No resource conflict is reported when the collected entries are
key-functional (any two entries with the same key carry the same value). -/
lemma resDupCheck_none (es : List (Nat × (String × Nat)))
    (h : ∀ e ∈ es, ∀ f ∈ es, e.2.1 = f.2.1 → e.2.2 = f.2.2) :
    resDupCheck es = none := by
  induction es with
  | nil => rfl
  | cons a rest ih
  =>
    obtain ⟨i, k, v⟩ := a
    have hfind : rest.find? (fun e => e.2.1 == k && e.2.2 != v) = none := by
      rw [List.find?_eq_none]
      intro e he
      simp only [Bool.and_eq_true, beq_iff_eq, bne_iff_ne, ne_eq, not_and, not_not]
      intro hk
      exact h e (List.mem_cons_of_mem _ he) (i, k, v) (List.mem_cons_self _ _) hk
    rw [resDupCheck, hfind]
    exact ih (fun e he f hf => h e (List.mem_cons_of_mem _ he) f (List.mem_cons_of_mem _ hf))

/-- Every tagged resource entry comes from the resources of some unit. -/
lemma mem_resTagFrom (ds : List Definitions) :
    ∀ i e, e ∈ resTagFrom i ds → ∃ d ∈ ds, e.2 ∈ d.resources := by
  induction ds with
  | nil => intro i e he; cases he
  | cons d rest ih =>
    intro i e he
    rw [resTagFrom, List.mem_append] at he
    rcases he with he | he
    · obtain ⟨r, hr, hre⟩ := List.mem_map.mp he
      exact ⟨d, List.mem_cons_self _ _, by rw [← hre]; exact hr⟩
    · obtain ⟨u, hu, hue⟩ := ih (i + 1) e he
      exact ⟨u, List.mem_cons_of_mem _ hu, hue⟩

/-- `dedupKeysAux` is the identity when the keys are `Nodup` and none was
seen before. -/
lemma dedupKeysAux_eq_self : ∀ (seen : List String) (l : List (String × Nat)),
    (l.map Prod.fst).Nodup → (∀ k ∈ l.map Prod.fst, k ∉ seen) → dedupKeysAux seen l = l
  | _, [], _, _ => rfl
  | seen, e :: rest, h, hs => by
    simp only [List.map_cons, List.nodup_cons] at h
    show (if e.1 ∈ seen then dedupKeysAux seen rest
      else e :: dedupKeysAux (e.1 :: seen) rest) = e :: rest
    rw [if_neg (hs e.1 (List.mem_cons_self _ _))]
    congr 1
    apply dedupKeysAux_eq_self _ _ h.2
    intro k hk
    simp only [List.mem_cons]
    rintro (rfl | hk2)
    · exact h.1 hk
    · exact hs k (List.mem_cons_of_mem _ hk) hk2

/-- `dedupKeys` is the identity on lists whose keys are already `Nodup`. -/
lemma dedupKeys_eq_self (l : List (String × Nat)) (h : (l.map Prod.fst).Nodup) :
    dedupKeys l = l :=
  dedupKeysAux_eq_self [] l h (by simp)

/-- Keys `Nodup` implies the association list is key-functional. -/
lemma nodup_keys_functional (l : List (String × Nat)) (h : (l.map Prod.fst).Nodup) :
    ∀ k a b, (k, a) ∈ l → (k, b) ∈ l → a = b := by
  induction l with
  | nil => intro k a b ha; cases ha
  | cons e rest ih =>
    simp only [List.map_cons, List.nodup_cons] at h
    intro k a b ha hb
    rcases List.mem_cons.mp ha with ha | ha <;> rcases List.mem_cons.mp hb with hb | hb
    · rw [← ha] at hb
      exact (Prod.mk.injEq _ _ _ _ |>.mp hb).2.symm
    · exact absurd (List.mem_map.mpr ⟨(k, b), hb, by rw [← ha]⟩) h.1
    · exact absurd (List.mem_map.mpr ⟨(k, a), ha, by rw [← hb]⟩) h.1
    · exact ih h.2 k a b ha hb

/-- Successful merge: when every collection's combined keys are `Nodup`
(per-unit uniqueness plus pairwise disjointness) and the resource entries
are key-functional across units, `mergeAll` returns the union of every
collection. -/
lemma mergeAll_ok (ds : List Definitions)
    (ha : ((ds.map (fun d => d.assets.map Prod.fst)).flatten).Nodup)
    (hj : ((ds.map (fun d => d.jobs.map Prod.fst)).flatten).Nodup)
    (hsc : ((ds.map (fun d => d.schedules.map Prod.fst)).flatten).Nodup)
    (hsn : ((ds.map (fun d => d.sensors.map Prod.fst)).flatten).Nodup)
    (hr : ∀ u ∈ ds, ∀ v ∈ ds, ∀ k a b, (k, a) ∈ u.resources → (k, b) ∈ v.resources → a = b) :
    mergeAll ds = Except.ok
      { assets := (ds.map Definitions.assets).flatten
        jobs := (ds.map Definitions.jobs).flatten
        resources := dedupKeys (ds.map Definitions.resources).flatten
        schedules := (ds.map Definitions.schedules).flatten
        sensors := (ds.map Definitions.sensors).flatten } := by
  have h1 : dupCheck (tagFrom Definitions.assets 0 ds) = none :=
    dupCheck_none _ (by rw [tagFrom_map_snd]; exact ha)
  have h2 : dupCheck (tagFrom Definitions.jobs 0 ds) = none :=
    dupCheck_none _ (by rw [tagFrom_map_snd]; exact hj)
  have h4 : dupCheck (tagFrom Definitions.schedules 0 ds) = none :=
    dupCheck_none _ (by rw [tagFrom_map_snd]; exact hsc)
  have h5 : dupCheck (tagFrom Definitions.sensors 0 ds) = none :=
    dupCheck_none _ (by rw [tagFrom_map_snd]; exact hsn)
  have h3 : resDupCheck (resTagFrom 0 ds) = none := by
    apply resDupCheck_none
    intro e he f hf hk
    obtain ⟨u, hu, hue⟩ := mem_resTagFrom ds 0 e he
    obtain ⟨v, hv, hvf⟩ := mem_resTagFrom ds 0 f hf
    refine hr u hu v hv e.2.1 e.2.2 f.2.2 hue ?_
    rw [hk]
    exact hvf
  simp only [mergeAll, h1, h2, h3, h4, h5]

/-- Membership in the flattened asset collection is membership in some
unit's assets. -/
lemma mem_flatten_assets (ds : List Definitions) (k : String) :
    k ∈ ((ds.map Definitions.assets).flatten).map Prod.fst ↔
      ∃ u ∈ ds, k ∈ u.assets.map Prod.fst := by
  simp only [List.mem_map, List.mem_flatten]
  constructor
  · rintro ⟨a, ⟨l, ⟨u, hu, hul⟩, hal⟩, hak⟩
    exact ⟨u, hu, a, by rw [hul]; exact hal, hak⟩
  · rintro ⟨u, hu, a, hau, hak⟩
    exact ⟨a, ⟨u.assets, ⟨u, hu, rfl⟩, hau⟩, hak⟩

/-- Units with no resources satisfy the key-functional resource condition. -/
lemma key_functional_of_no_resources (ds : List Definitions)
    (h : ∀ u ∈ ds, u.resources = []) :
    ∀ u ∈ ds, ∀ v ∈ ds, ∀ k a b, (k, a) ∈ u.resources → (k, b) ∈ v.resources → a = b := by
  intro u hu v hv k a b hka hkb
  rw [h u hu] at hka
  cases hka

/-- C1: for every collection of build units whose combined asset name sets
are pairwise disjoint (stated as: the per-unit builds succeeded with
`Definitions` list `ds`, and the concatenation of the per-unit asset key
lists is duplicate-free — per-unit uniqueness plus pairwise disjointness —
with the same for the other keyed collections and key-functional
resources), `build_component_defs` produces a composite `Definitions`
whose asset collection is exactly the concatenation of the per-unit asset
collections: its asset key set is the union of the per-unit asset key
sets, with no asset lost and none added. -/
theorem build_component_defs_disjoint_assets_union
    (env : Env) (root : FsPath) (R : List (String × Nat)) (ct : Option Registry)
    (ds : List Definitions)
    (hds : (env.rootEntries root).mapM
        (fun p => build_defs_from_component_path env root p R) = Except.ok ds)
    (ha : ((ds.map (fun d => d.assets.map Prod.fst)).flatten).Nodup)
    (hj : ((ds.map (fun d => d.jobs.map Prod.fst)).flatten).Nodup)
    (hsc : ((ds.map (fun d => d.schedules.map Prod.fst)).flatten).Nodup)
    (hsn : ((ds.map (fun d => d.sensors.map Prod.fst)).flatten).Nodup)
    (hr : ∀ u ∈ ds, ∀ v ∈ ds, ∀ k a b, (k, a) ∈ u.resources → (k, b) ∈ v.resources → a = b) :
    ∃ d, build_component_defs env root (some R) ct = Except.ok d ∧
      d.assets = (ds.map Definitions.assets).flatten ∧
      ∀ k, k ∈ d.assets.map Prod.fst ↔ ∃ u ∈ ds, k ∈ u.assets.map Prod.fst := by
  have hm := mergeAll_ok ds ha hj hsc hsn hr
  exact ⟨_, by
      simp only [build_component_defs, Option.getD_some]
      rw [hds]
      exact hm,
    rfl, fun k => mem_flatten_assets ds k⟩

/-- Witness for C1 at a concrete two-unit root with disjoint assets
`a1` and `b1`. -/
theorem build_component_defs_disjoint_assets_union_witness :
    ∃ d, build_component_defs envTwoUnits ["root"] (some []) none = Except.ok d ∧
      d.assets = (([{ assets := [("a1", 0)] }, { assets := [("b1", 0)] }] :
          List Definitions).map Definitions.assets).flatten ∧
      ∀ k, k ∈ d.assets.map Prod.fst ↔
        ∃ u ∈ ([{ assets := [("a1", 0)] }, { assets := [("b1", 0)] }] : List Definitions),
          k ∈ u.assets.map Prod.fst :=
  build_component_defs_disjoint_assets_union envTwoUnits ["root"] [] none
    [{ assets := [("a1", 0)] }, { assets := [("b1", 0)] }]
    (by rfl) (by decide) (by decide) (by decide) (by decide)
    (key_functional_of_no_resources _ (by decide))

/-- C2: for every pair of build units that each define an asset with the
same identifying key `x` (and whose shared asset keys are exactly `x`, the
first unit's keys being unique), the merge step of `build_component_defs`
fails with `DuplicateDefinitionError` naming `x`, the asset kind, and both
contributing units `0` and `1`; no composite is returned, so no silent
override of one unit's definition by the other's occurs. -/
theorem build_component_defs_duplicate_asset_error
    (env : Env) (root : FsPath) (R : List (String × Nat)) (ct : Option Registry)
    (d1 d2 : Definitions) (x : String)
    (hds : (env.rootEntries root).mapM
        (fun p => build_defs_from_component_path env root p R) = Except.ok [d1, d2])
    (h1 : (d1.assets.map Prod.fst).Nodup)
    (hx1 : x ∈ d1.assets.map Prod.fst)
    (hx2 : x ∈ d2.assets.map Prod.fst)
    (hsh : ∀ k, k ∈ d1.assets.map Prod.fst → k ∈ d2.assets.map Prod.fst → k = x) :
    build_component_defs env root (some R) ct =
      Except.error (BuildError.duplicateDefinitionError x DefKind.asset 0 1) := by
  have htag : tagFrom Definitions.assets 0 [d1, d2] =
      (d1.assets.map Prod.fst).map (fun k => (0, k)) ++
        (d2.assets.map Prod.fst).map (fun k => (1, k)) := by
    simp only [tagFrom, List.append_nil, List.map_map]
    rfl
  have hdup : dupCheck (tagFrom Definitions.assets 0 [d1, d2]) = some (x, 0, 1) := by
    rw [htag]
    exact dupCheck_pair _ _ x h1 hx1 hx2 hsh
  simp only [build_component_defs, Option.getD_some]
  rw [hds]
  show mergeAll [d1, d2] = _
  simp only [mergeAll, hdup]

/-- Witness for C2 at a concrete two-unit root whose units both define the
asset `x`. -/
theorem build_component_defs_duplicate_asset_error_witness :
    build_component_defs envClash ["root"] (some []) none =
      Except.error (BuildError.duplicateDefinitionError "x" DefKind.asset 0 1) :=
  build_component_defs_duplicate_asset_error envClash ["root"] [] none
    { assets := [("x", 0)] } { assets := [("x", 1)] } "x"
    (by rfl) (by decide) (by decide) (by decide) (by decide)

/-! ### Lemmas about the declaration tree -/

mutual

/-- On a tree built from the two declared variants only, folder flattening
returns the pre-order list of leaves. -/
lemma resolve_ok_of_noUnknown : ∀ t : ComponentDeclNode, noUnknown t = true →
    resolve_decl_node_to_yaml_decls t = Except.ok (preorderLeavesSpec t)
  | ComponentDeclNode.yaml _, _ => rfl
  | ComponentDeclNode.folder subs, h =>
      resolveList_ok_of_noUnknown subs h
  | ComponentDeclNode.unknownNode _, h => by simp [noUnknown] at h

/-- `resolve_ok_of_noUnknown` over a folder's children. -/
lemma resolveList_ok_of_noUnknown : ∀ l : List ComponentDeclNode, noUnknownList l = true →
    resolveDeclList l = Except.ok (preorderLeavesSpecList l)
  | [], _ => rfl
  | d :: rest, h => by
      rw [noUnknownList, Bool.and_eq_true] at h
      show (do
        let l1 ← resolve_decl_node_to_yaml_decls d
        let r ← resolveDeclList rest
        Except.ok (l1 ++ r)) = Except.ok (preorderLeavesSpec d ++ preorderLeavesSpecList rest)
      rw [resolve_ok_of_noUnknown d h.1, resolveList_ok_of_noUnknown rest h.2]
      rfl

end

mutual

/-- The pre-order leaf list has exactly one entry per leaf-type node. -/
lemma preorderLeaves_length : ∀ t : ComponentDeclNode,
    (preorderLeavesSpec t).length = leafCountSpec t
  | ComponentDeclNode.yaml _ => rfl
  | ComponentDeclNode.folder subs => preorderLeavesList_length subs
  | ComponentDeclNode.unknownNode _ => rfl

/-- `preorderLeaves_length` over a folder's children. -/
lemma preorderLeavesList_length : ∀ l : List ComponentDeclNode,
    (preorderLeavesSpecList l).length = leafCountSpecList l
  | [] => rfl
  | d :: rest => by
      show (preorderLeavesSpec d ++ preorderLeavesSpecList rest).length =
        leafCountSpec d + leafCountSpecList rest
      rw [List.length_append, preorderLeaves_length d, preorderLeavesList_length rest]

end

/-- A concrete declaration tree of nesting depth three with three leaves. -/
def treeW : ComponentDeclNode :=
  ComponentDeclNode.folder
    [ComponentDeclNode.yaml declA,
     ComponentDeclNode.folder [ComponentDeclNode.yaml declB, ComponentDeclNode.folder []],
     ComponentDeclNode.yaml declA]

/-- C3: for every declaration tree built from the two declared variants,
`resolve_decl_node_to_yaml_decls` returns exactly the pre-order list of
the tree's leaves (depth-first, children in stored order, regardless of
nesting depth), whose length equals the number of leaf-type nodes; the
result is a function of the tree alone, so the order is the same across
repeated calls. -/
theorem resolve_decl_node_preorder_leaves (t : ComponentDeclNode)
    (h : noUnknown t = true) :
    resolve_decl_node_to_yaml_decls t = Except.ok (preorderLeavesSpec t) ∧
      (preorderLeavesSpec t).length = leafCountSpec t :=
  ⟨resolve_ok_of_noUnknown t h, preorderLeaves_length t⟩

/-- Witness for C3 at a concrete tree of nesting depth three. -/
theorem resolve_decl_node_preorder_leaves_witness :
    resolve_decl_node_to_yaml_decls treeW = Except.ok (preorderLeavesSpec treeW) ∧
      (preorderLeavesSpec treeW).length = leafCountSpec treeW :=
  resolve_decl_node_preorder_leaves treeW (by decide)

/-- C10: `resolve_decl_node_to_yaml_decls` handles the two declared node
variants exhaustively and totally — on every tree containing only the two
declared variants it returns a list without error (the
`NotImplementedError` branch is unreachable under that precondition),
while on a node of any other kind it raises `NotImplementedError` naming
the node rather than returning. -/
theorem resolve_decl_node_total_on_declared_variants (t : ComponentDeclNode) :
    (noUnknown t = true → ∃ l, resolve_decl_node_to_yaml_decls t = Except.ok l) ∧
    (∀ tag, resolve_decl_node_to_yaml_decls (ComponentDeclNode.unknownNode tag) =
      Except.error (BuildError.notImplementedError (ComponentDeclNode.unknownNode tag))) :=
  ⟨fun h => ⟨preorderLeavesSpec t, resolve_ok_of_noUnknown t h⟩, fun _ => rfl⟩

/-- Witness for C10 at a concrete declared tree and a concrete foreign
node. -/
theorem resolve_decl_node_total_on_declared_variants_witness :
    (∃ l, resolve_decl_node_to_yaml_decls treeW = Except.ok l) ∧
    resolve_decl_node_to_yaml_decls (ComponentDeclNode.unknownNode 7) =
      Except.error (BuildError.notImplementedError (ComponentDeclNode.unknownNode 7)) :=
  ⟨(resolve_decl_node_total_on_declared_variants treeW).1 (by decide),
   (resolve_decl_node_total_on_declared_variants treeW).2 7⟩

/-! ### Lemmas relating the instrumented build to the plain build -/

/-- The instrumented per-unit build computes the same result as the
source's `build_defs_from_component_path`. -/
lemma build_defs_traced_fst (env : Env) (root p : FsPath) (R : List (String × Nat)) :
    (build_defs_from_component_path_traced env root p R).1 =
      build_defs_from_component_path env root p R := by
  simp only [build_defs_from_component_path_traced, build_defs_from_component_path]
  rcases hp : env.pathToDeclNode p with _ | decl
  · rfl
  · simp only []
    rcases hl : loadDeclNode env.discovered ResolutionContext.default decl with e | comps <;>
      simp [hl]

/-- The instrumented unit loop computes the same results as the `mapM`
over `build_defs_from_component_path`. -/
lemma buildUnitsTraced_fst (env : Env) (root : FsPath) (R : List (String × Nat)) :
    ∀ ps : List FsPath, (buildUnitsTraced env root R ps).1 =
      ps.mapM (fun p => build_defs_from_component_path env root p R)
  | [] => rfl
  | p :: rest => by
    rw [List.mapM_cons]
    have hp : build_defs_from_component_path env root p R =
        (build_defs_from_component_path_traced env root p R).1 :=
      (build_defs_traced_fst env root p R).symm
    rcases h : build_defs_from_component_path_traced env root p R with ⟨r, t⟩
    rw [h] at hp
    have ih := buildUnitsTraced_fst env root R rest
    rcases r with e | d
    · rw [buildUnitsTraced, h, hp]
      rfl
    · rcases h2 : buildUnitsTraced env root R rest with ⟨r2, t2⟩
      rw [h2] at ih
      rcases r2 with e2 | ds
      · rw [buildUnitsTraced, h, h2, hp, ← ih]
        rfl
      · rw [buildUnitsTraced, h, h2, hp, ← ih]
        rfl

/-- The instrumented top-level build computes the same result as the
source's `build_component_defs`. -/
lemma build_component_defs_traced_fst (env : Env) (root : FsPath)
    (R : Option (List (String × Nat))) (ct : Option Registry) :
    (build_component_defs_traced env root R ct).1 = build_component_defs env root R ct := by
  simp only [build_component_defs_traced, build_component_defs]
  have hm := buildUnitsTraced_fst env root (R.getD []) (env.rootEntries root)
  rcases h : buildUnitsTraced env root (R.getD []) (env.rootEntries root) with ⟨r, t⟩
  rw [h] at hm
  rw [← hm]
  rcases r with e | ds <;> rfl

/-- C4 (amended): `build_component_defs` is a pure function with no cache,
so building the same components root twice returns identical composite
`Definitions` (in particular identical asset key sets) — but every build,
the second included, invokes `build_defs` on exactly the same loaded
components as the first: no unit's `build_defs` invocation is skipped on
the second build. -/
theorem build_twice_idempotent_and_reinvokes (env : Env) (root : FsPath)
    (R : Option (List (String × Nat))) (ct : Option Registry) :
    (build_twice env root R ct).2 = (build_twice env root R ct).1 ∧
    (build_twice env root R ct).1.1 = build_component_defs env root R ct ∧
    (build_twice env root R ct).2.2 = (build_twice env root R ct).1.2 :=
  ⟨rfl, build_component_defs_traced_fst env root R ct, rfl⟩

/-- C4 counterexample: at a concrete one-unit root, both the first and the
second build invoke `build_defs` on the unit's component — the second
build re-invokes `build_defs` for the unit already built the first time,
refuting the claimed cache reuse. -/
theorem build_twice_second_build_reinvokes_counterexample :
    (build_twice envOneUnit ["root"] none none).1.2 = [compA] ∧
    (build_twice envOneUnit ["root"] none none).2.2 = [compA] ∧
    ([compA] : List Component) ≠ [] :=
  ⟨rfl, rfl, by decide⟩

/-- A concrete load context for the per-unit merge theorems. -/
def ctxW : ComponentLoadContext :=
  { module_name := "root"
    resources := []
    decl_node := ComponentDeclNode.folder []
    resolution_context := ResolutionContext.default }

/-- C5 (amended): the resources wrapper is added per build unit by
`defs_from_components`, not at the top level — a unit with zero components
and resources `R` yields exactly the resources `R`, while a top-level
build of a root with zero build units yields an empty composite
containing no resources at all. -/
theorem build_zero_units_and_resources_wrapper (env : Env) (root : FsPath)
    (R : List (String × Nat)) (ct : Option Registry) (ctx : ComponentLoadContext) :
    (env.rootEntries root = [] → build_component_defs env root (some R) ct = Except.ok {}) ∧
    ((R.map Prod.fst).Nodup →
      defs_from_components env ctx [] R = Except.ok { resources := R }) := by
  constructor
  · intro h
    simp only [build_component_defs, Option.getD_some, h]
    rfl
  · intro hN
    show mergeAll [{ resources := R }] = Except.ok { resources := R }
    have h3 : resDupCheck (resTagFrom 0 [{ resources := R }]) = none := by
      apply resDupCheck_none
      intro e he f hf hk
      simp only [resTagFrom, List.append_nil, List.mem_map] at he hf
      obtain ⟨r, hr, hre⟩ := he
      obtain ⟨s, hs, hsf⟩ := hf
      subst hre
      subst hsf
      exact nodup_keys_functional R hN r.1 r.2 s.2 hr (by rw [hk]; exact hs)
    have hall : mergeAll [{ resources := R }] = Except.ok
        { assets := [], jobs := [], resources := dedupKeys (R ++ []),
          schedules := [], sensors := [] } := by
      unfold mergeAll
      rw [h3]
      rfl
    rw [hall, List.append_nil, dedupKeys_eq_self R hN]

/-- Witness for the amended C5 at a concrete empty root and a concrete
zero-component unit with resources `db`. -/
theorem build_zero_units_and_resources_wrapper_witness :
    build_component_defs envEmpty ["root"] (some [("db", 1)]) none = Except.ok {} ∧
    defs_from_components envEmpty ctxW [] [("db", 1)] =
      Except.ok { resources := [("db", 1)] } :=
  ⟨(build_zero_units_and_resources_wrapper envEmpty ["root"] [("db", 1)] none ctxW).1 rfl,
   (build_zero_units_and_resources_wrapper envEmpty ["root"] [("db", 1)] none ctxW).2
     (by decide)⟩

/-- C5 counterexample: building a root with zero build units and external
resources `db` yields an empty composite — the claimed composite
"containing exactly the resources R" does not appear, because the
resources wrapper is only merged per unit and there are no units. -/
theorem build_zero_units_drops_resources_counterexample :
    build_component_defs envEmpty ["root"] (some [("db", 1)]) none = Except.ok {} ∧
    ({} : Definitions).resources ≠ [("db", 1)] :=
  ⟨rfl, by decide⟩

/-- Like `envOneUnit`, but entry-point discovery provides no component
types at all. -/
def envUndiscovered : Env :=
  { pathToDeclNode := fun p =>
      if p = ["root", "a"] then some (ComponentDeclNode.yaml declA) else none
    rootEntries := fun _ => [["root", "a"]]
    discovered := []
    buildDefsFn := fun _ _ => { assets := [("a1", 0)] }
    additionalScope := fun _ => [] }

/-- C6 (code bug in the source): `build_component_defs` computes
`component_types = component_types or discover_entry_point_component_types()`
and then never uses it — no registry is passed to
`build_defs_from_component_path`, so component-type validation consults
the ambient discovered registry, not the supplied `component_types`
argument.  Concretely: with `keyA` discoverable, supplying an empty
registry does not make the build fail (first conjunct, the claim demands
`UnknownComponentTypeError` here); with `keyA` not discoverable,
supplying a registry containing `keyA` still fails with
`UnknownComponentTypeError` naming the key and the declaration's location
(second conjunct); in general the `component_types` argument never
affects the result (third conjunct). -/
theorem build_component_defs_ignores_component_types :
    build_component_defs envOneUnit ["root"] none (some []) =
      Except.ok { assets := [("a1", 0)] } ∧
    build_component_defs envUndiscovered ["root"] none (some [keyA]) =
      Except.error (BuildError.unknownComponentTypeError keyA ["root", "a"]) ∧
    ∀ (env : Env) (root : FsPath) (R : Option (List (String × Nat)))
      (ct1 ct2 : Option Registry),
      build_component_defs env root R ct1 = build_component_defs env root R ct2 :=
  ⟨rfl, rfl, fun _ _ _ _ _ => rfl⟩

/-- C7: for every path at which `path_to_decl_node` recognizes no
declaration, the per-unit build fails with the not-found error reporting
the offending path (the source raises
`Exception(f"No component found at path {path}")`). -/
theorem build_defs_not_found_error (env : Env) (root p : FsPath)
    (R : List (String × Nat)) (h : env.pathToDeclNode p = none) :
    build_defs_from_component_path env root p R =
      Except.error (BuildError.notFoundError p) := by
  unfold build_defs_from_component_path
  rw [h]

/-- Witness for C7 at a concrete unrecognized path. -/
theorem build_defs_not_found_error_witness :
    build_defs_from_component_path envEmpty ["root"] ["root", "a"] [] =
      Except.error (BuildError.notFoundError ["root", "a"]) :=
  build_defs_not_found_error envEmpty ["root"] ["root", "a"] [] rfl

/-- C8: the `asset_attributes` field of the dbt project schema declares
required scope key `node`; resolving it from a context lacking `node`
raises `ScopeResolutionError` naming the missing key and the field path,
while resolving it from a context containing `node` succeeds with a value
reflecting that scope entry's value. -/
theorem required_scope_node_resolution (ctx : ResolutionContext) :
    (ctx.lookup "node" = none →
      resolveRequiredScopeField ctx dbtAssetAttributesField =
        Except.error (BuildError.scopeResolutionError "node" "asset_attributes")) ∧
    (∀ v, ctx.lookup "node" = some v →
      resolveRequiredScopeField ctx dbtAssetAttributesField =
        Except.ok [("node", v)]) := by
  constructor
  · intro h
    show resolveScopeKeys ctx "asset_attributes" ["node"] = _
    simp only [resolveScopeKeys, h]
  · intro v h
    show resolveScopeKeys ctx "asset_attributes" ["node"] = _
    simp only [resolveScopeKeys, h]
    rfl

/-- Witness for C8: the empty context lacks `node` and errors; a context
binding `node` to `5` resolves to that value. -/
theorem required_scope_node_resolution_witness :
    resolveRequiredScopeField ResolutionContext.default dbtAssetAttributesField =
      Except.error (BuildError.scopeResolutionError "node" "asset_attributes") ∧
    resolveRequiredScopeField ⟨[[("node", 5)]]⟩ dbtAssetAttributesField =
      Except.ok [("node", 5)] :=
  ⟨(required_scope_node_resolution ResolutionContext.default).1 rfl,
   (required_scope_node_resolution ⟨[[("node", 5)]]⟩).2 5 rfl⟩

/-- A concrete leaf declaration with a literal field and a scope-reading
field. -/
def declC9 : YamlComponentDecl :=
  { path := ["root", "c"], typeKey := keyA
    fields := [("a", FieldVal.lit 3), ("b", FieldVal.scopeRef "node" "b")] }

/-- C9: resolution is pure given context — resolving the same leaf
declaration twice against the same registry and resolution context yields
components with the same resolved field values (indeed equal components):
the modelled resolution is a function of the declaration and the context
alone. -/
theorem leaf_resolution_deterministic (reg : Registry) (rctx : ResolutionContext)
    (d : YamlComponentDecl) (c1 c2 : Component)
    (h1 : YamlComponentDecl.load reg rctx d = Except.ok c1)
    (h2 : YamlComponentDecl.load reg rctx d = Except.ok c2) :
    c1.resolvedFields = c2.resolvedFields ∧ c1 = c2 := by
  rw [h1] at h2
  injection h2 with h
  subst h
  exact ⟨rfl, rfl⟩

/-- Witness for C9 at a concrete leaf resolved twice in a context binding
`node` to `5`. -/
theorem leaf_resolution_deterministic_witness :
    ({ key := keyA, resolvedFields := [("a", 3), ("b", 5)] } : Component).resolvedFields =
      ({ key := keyA, resolvedFields := [("a", 3), ("b", 5)] } : Component).resolvedFields ∧
    ({ key := keyA, resolvedFields := [("a", 3), ("b", 5)] } : Component) =
      { key := keyA, resolvedFields := [("a", 3), ("b", 5)] } :=
  leaf_resolution_deterministic [keyA] ⟨[[("node", 5)]]⟩ declC9 _ _ rfl rfl
